import Mathlib

/-!
Verification of the TradeMind repository's scoring, gem-discovery, and
whale-tracking logic against its natural-language specification.

Embedding conventions:
* Python floats are modeled as exact rationals (`ℚ`).  The source rounds the
  values it reports to two decimal places purely for display
  (`round(x, 2)` in `calculate_comprehensive_score`); the embedding keeps the
  exact values the formulas compute.
* A coin record is the dictionary produced by the CoinGecko collector
  (`_parse_coin_details`); `dict.get(key, 0)` defaults absent keys to `0`, so
  the record is modeled as a structure of rational fields.
* `math.log10` is transcendental, so the functions that use it take the
  logarithm as an explicit function parameter `f : ℚ → ℚ`; theorems assume
  only what the source guarantees about its inputs (arguments are `≥ 1`, where
  `math.log10` is nonnegative).
-/

namespace TradeMind

/-- Coin record as produced by `CoinGeckoClient._parse_coin_details`
(src/trademind/collectors/coingecko.py): numeric fields of the dictionary
consumed by the analyzers; `.get(key, 0)` defaults are folded into the fields. -/
structure CoinData where
  twitter_followers : ℚ := 0
  reddit_subscribers : ℚ := 0
  reddit_active_users_48h : ℚ := 0
  telegram_users : ℚ := 0
  facebook_likes : ℚ := 0
  market_cap : ℚ := 0
  total_volume : ℚ := 0
  price_change_percentage_24h : ℚ := 0
  price_change_percentage_7d : ℚ := 0
  price_change_percentage_30d : ℚ := 0
  circulating_supply : ℚ := 0
  total_supply : ℚ := 0
  max_supply : ℚ := 0
  current_price : ℚ := 0
  ath : ℚ := 0
  high_24h : ℚ := 0
  low_24h : ℚ := 0
  github_commits_4w : ℚ := 0
  github_stars : ℚ := 0
  github_forks : ℚ := 0
  github_issues : ℚ := 0
  github_pull_requests : ℚ := 0
deriving DecidableEq

/-- `GemScoreCalculator.calculate_social_score`
(src/trademind/analyzers/score_calculator.py, lines 84-126).
Each `score +=` block is independent of the accumulated score, so the
sequential accumulation is written as a sum of banded terms.
`f` stands for `math.log10`. -/
def calculate_social_score (f : ℚ → ℚ) (c : CoinData) : ℚ :=
  min ((if 0 < c.twitter_followers then min 40 (f (max c.twitter_followers 1) * 8) else 0)
    + (if 0 < c.reddit_subscribers then
        min 20 (f (max c.reddit_subscribers 1) * 4)
        + (if 0 < c.reddit_active_users_48h then
            min 10 (c.reddit_active_users_48h / c.reddit_subscribers * 200) else 0)
      else 0)
    + (if 0 < c.telegram_users then min 20 (f (max c.telegram_users 1) * 4) else 0)
    + (if 0 < c.facebook_likes then min 10 (f (max c.facebook_likes 1) * 2) else 0)) 100

/-- `GemScoreCalculator.calculate_onchain_score`
(src/trademind/analyzers/score_calculator.py, lines 128-213). -/
def calculate_onchain_score (c : CoinData) : ℚ :=
  min ((if 0 < c.market_cap then
        (if 10000000 ≤ c.market_cap ∧ c.market_cap ≤ 50000000 then (30 : ℚ)
         else if 5000000 ≤ c.market_cap ∧ c.market_cap < 10000000 then 25
         else if 1000000 ≤ c.market_cap ∧ c.market_cap < 5000000 then 20
         else if 50000000 < c.market_cap ∧ c.market_cap ≤ 100000000 then 15
         else 10)
      else 0)
    + (if 0 < c.total_volume ∧ 0 < c.market_cap then
        (if 0.2 < c.total_volume / c.market_cap then (25 : ℚ)
         else if 0.1 < c.total_volume / c.market_cap then 20
         else if 0.05 < c.total_volume / c.market_cap then 15
         else if 0.02 < c.total_volume / c.market_cap then 10
         else 5)
      else 0)
    + (if 0 ≤ c.price_change_percentage_7d ∧ c.price_change_percentage_7d ≤ 50 then (20 : ℚ)
       else if -20 ≤ c.price_change_percentage_7d ∧ c.price_change_percentage_7d < 0 then 15
       else if 50 < c.price_change_percentage_7d ∧ c.price_change_percentage_7d ≤ 100 then 10
       else 5)
    + (if 0 < c.circulating_supply ∧ 0 < c.total_supply then
        (if 0.8 < c.circulating_supply / c.total_supply then (15 : ℚ)
         else if 0.5 < c.circulating_supply / c.total_supply then 10
         else 5)
      else 0)
    + (if 0 < c.current_price ∧ 0 < c.ath then
        (if (c.ath - c.current_price) / c.ath < 0.2 then (5 : ℚ)
         else if 0.2 ≤ (c.ath - c.current_price) / c.ath ∧ (c.ath - c.current_price) / c.ath < 0.5 then 10
         else if 0.5 ≤ (c.ath - c.current_price) / c.ath ∧ (c.ath - c.current_price) / c.ath < 0.8 then 8
         else 5)
      else 0)) 100

/-- `GemScoreCalculator.calculate_development_score`
(src/trademind/analyzers/score_calculator.py, lines 215-275).
`f` stands for `math.log10`. -/
def calculate_development_score (f : ℚ → ℚ) (c : CoinData) : ℚ :=
  min ((if 0 < c.github_commits_4w then
        (if 100 ≤ c.github_commits_4w then (40 : ℚ)
         else if 50 ≤ c.github_commits_4w then 30
         else if 20 ≤ c.github_commits_4w then 20
         else if 5 ≤ c.github_commits_4w then 10
         else 5)
      else 0)
    + (if 0 < c.github_stars then min 20 (f (max c.github_stars 1) * 5) else 0)
    + (if 0 < c.github_forks then min 15 (f (max c.github_forks 1) * 3.75) else 0)
    + (if 0 < c.github_issues then
        (if 100 ≤ c.github_issues then (15 : ℚ)
         else if 50 ≤ c.github_issues then 10
         else if 20 ≤ c.github_issues then 7
         else 3)
      else 0)
    + (if 0 < c.github_pull_requests then
        (if 50 ≤ c.github_pull_requests then (10 : ℚ)
         else if 20 ≤ c.github_pull_requests then 7
         else if 10 ≤ c.github_pull_requests then 5
         else 2)
      else 0)) 100

/-- `GemScoreCalculator.calculate_liquidity_score`
(src/trademind/analyzers/score_calculator.py, lines 277-344). -/
def calculate_liquidity_score (c : CoinData) : ℚ :=
  if c.market_cap ≤ 0 ∨ c.total_volume ≤ 0 then 0
  else
    min ((if 0.3 ≤ c.total_volume / c.market_cap then (50 : ℚ)
         else if 0.2 ≤ c.total_volume / c.market_cap then 45
         else if 0.1 ≤ c.total_volume / c.market_cap then 40
         else if 0.05 ≤ c.total_volume / c.market_cap then 30
         else if 0.02 ≤ c.total_volume / c.market_cap then 20
         else if 0.01 ≤ c.total_volume / c.market_cap then 10
         else 5)
      + (if 10000000 ≤ c.total_volume then (25 : ℚ)
         else if 5000000 ≤ c.total_volume then 20
         else if 1000000 ≤ c.total_volume then 15
         else if 500000 ≤ c.total_volume then 10
         else if 100000 ≤ c.total_volume then 5
         else 2)
      + (if 0 < c.high_24h ∧ 0 < c.low_24h ∧ 0 < c.current_price then
          (if (c.high_24h - c.low_24h) / c.current_price ≤ 0.05 then (25 : ℚ)
           else if (c.high_24h - c.low_24h) / c.current_price ≤ 0.1 then 20
           else if (c.high_24h - c.low_24h) / c.current_price ≤ 0.2 then 15
           else if (c.high_24h - c.low_24h) / c.current_price ≤ 0.3 then 10
           else 5)
        else 0)) 100

/-- `GemScoreCalculator.calculate_holder_score`
(src/trademind/analyzers/score_calculator.py, lines 346-376). -/
def calculate_holder_score (c : CoinData) : ℚ :=
  min (if 0 < c.market_cap ∧ 0 < c.total_volume then
        (if 0.8 < 1 - min (c.total_volume / c.market_cap) 1 then (80 : ℚ)
         else if 0.6 < 1 - min (c.total_volume / c.market_cap) 1 then 70
         else if 0.4 < 1 - min (c.total_volume / c.market_cap) 1 then 60
         else if 0.2 < 1 - min (c.total_volume / c.market_cap) 1 then 40
         else 20)
      else 50) 100

/-- `GemScoreCalculator.calculate_momentum_score`
(src/trademind/analyzers/score_calculator.py, lines 378-419). -/
def calculate_momentum_score (c : CoinData) : ℚ :=
  max 0 (min (50
    + (if 10 < c.price_change_percentage_24h then (20 : ℚ)
       else if 5 < c.price_change_percentage_24h then 15
       else if 0 < c.price_change_percentage_24h then 10
       else if -5 < c.price_change_percentage_24h then -5
       else if -10 < c.price_change_percentage_24h then -10
       else -20)
    + (if 50 < c.price_change_percentage_7d then (30 : ℚ)
       else if 20 < c.price_change_percentage_7d then 25
       else if 10 < c.price_change_percentage_7d then 20
       else if 0 < c.price_change_percentage_7d then 15
       else if -10 < c.price_change_percentage_7d then -10
       else if -20 < c.price_change_percentage_7d then -15
       else -25)) 100)

/-- `GemScoreCalculator.calculate_trend_score`
(src/trademind/analyzers/score_calculator.py, lines 421-460).
Python's `if change_30d:` is falsy exactly when the value is zero. -/
def calculate_trend_score (c : CoinData) : ℚ :=
  max 0 (min (50
    + (if c.price_change_percentage_30d ≠ 0 then
        (if 100 < c.price_change_percentage_30d then (30 : ℚ)
         else if 50 < c.price_change_percentage_30d then 25
         else if 20 < c.price_change_percentage_30d then 20
         else if 0 < c.price_change_percentage_30d then 15
         else -(|c.price_change_percentage_30d| / 10))
      else 0)
    + (if 0 < c.current_price ∧ 0 < c.ath then
        (if 0.8 < c.current_price / c.ath then (20 : ℚ)
         else if 0.5 < c.current_price / c.ath then 15
         else if 0.2 < c.current_price / c.ath then 10
         else 5)
      else 0)) 100)

/-- `GemScoreCalculator.calculate_risk_score`
(src/trademind/analyzers/score_calculator.py, lines 462-515).
Additive penalties, higher means riskier, clamped at 100. -/
def calculate_risk_score (c : CoinData) : ℚ :=
  min ((if c.market_cap < 1000000 then (30 : ℚ)
       else if c.market_cap < 10000000 then 20
       else if c.market_cap < 50000000 then 10
       else 0)
    + (if 100 < |c.price_change_percentage_7d| then (25 : ℚ)
       else if 50 < |c.price_change_percentage_7d| then 15
       else if 20 < |c.price_change_percentage_7d| then 10
       else 0)
    + (if c.total_volume < 100000 then (20 : ℚ)
       else if c.total_volume < 500000 then 15
       else if c.total_volume < 1000000 then 10
       else 0)
    + (if c.twitter_followers < 1000 ∧ c.reddit_subscribers < 1000 then (15 : ℚ)
       else if c.twitter_followers < 5000 ∧ c.reddit_subscribers < 5000 then 10
       else 0)
    + (if c.github_commits_4w = 0 then (10 : ℚ)
       else if c.github_commits_4w < 5 then 5
       else 0)) 100

/-- `GemScoreCalculator._score_to_grade`
(src/trademind/analyzers/score_calculator.py, lines 517-540). -/
def score_to_grade (score : ℚ) : String :=
  if 90 ≤ score then "A+"
  else if 85 ≤ score then "A"
  else if 80 ≤ score then "A-"
  else if 75 ≤ score then "B+"
  else if 70 ≤ score then "B"
  else if 65 ≤ score then "B-"
  else if 60 ≤ score then "C+"
  else if 55 ≤ score then "C"
  else if 50 ≤ score then "C-"
  else if 40 ≤ score then "D"
  else "F"

/-- `GemScoreCalculator._score_to_recommendation`
(src/trademind/analyzers/score_calculator.py, lines 542-555). -/
def score_to_recommendation (score risk_score : ℚ) : String :=
  if 85 ≤ score ∧ risk_score ≤ 30 then "STRONG_BUY"
  else if 75 ≤ score ∧ risk_score ≤ 40 then "BUY"
  else if 65 ≤ score ∧ risk_score ≤ 50 then "MODERATE_BUY"
  else if 55 ≤ score then "HOLD_WATCH"
  else if 45 ≤ score then "WEAK_HOLD"
  else "AVOID"

/-- The five scoring weights held by `GemScoreCalculator.__init__`. -/
structure ScoreWeights where
  social_weight : ℚ
  onchain_weight : ℚ
  dev_weight : ℚ
  liquidity_weight : ℚ
  holder_weight : ℚ
deriving DecidableEq

/-- The constructor defaults of `GemScoreCalculator`. -/
def defaultScoreWeights : ScoreWeights := ⟨0.3, 0.25, 0.2, 0.15, 0.1⟩

/-- The dictionary returned by `calculate_comprehensive_score` (exact values;
the source rounds each reported number to two decimals for display only). -/
structure ScoreBreakdown where
  total_score : ℚ
  risk_adjusted_score : ℚ
  social_score : ℚ
  onchain_score : ℚ
  development_score : ℚ
  liquidity_score : ℚ
  holder_score : ℚ
  momentum_score : ℚ
  trend_score : ℚ
  risk_score : ℚ
  grade : String
  recommendation : String
deriving DecidableEq

/-- `GemScoreCalculator.calculate_comprehensive_score`
(src/trademind/analyzers/score_calculator.py, lines 34-82).
`f` stands for `math.log10`; `w` holds the configured weights. -/
def calculate_comprehensive_score (w : ScoreWeights) (f : ℚ → ℚ) (c : CoinData) :
    ScoreBreakdown :=
  let social_score := calculate_social_score f c
  let onchain_score := calculate_onchain_score c
  let dev_score := calculate_development_score f c
  let liquidity_score := calculate_liquidity_score c
  let holder_score := calculate_holder_score c
  let total_score :=
    social_score * w.social_weight + onchain_score * w.onchain_weight +
    dev_score * w.dev_weight + liquidity_score * w.liquidity_weight +
    holder_score * w.holder_weight
  let momentum_score := calculate_momentum_score c
  let trend_score := calculate_trend_score c
  let risk_score := calculate_risk_score c
  let risk_adjusted_score := total_score * (1 - risk_score / 200)
  { total_score := total_score
    risk_adjusted_score := risk_adjusted_score
    social_score := social_score
    onchain_score := onchain_score
    development_score := dev_score
    liquidity_score := liquidity_score
    holder_score := holder_score
    momentum_score := momentum_score
    trend_score := trend_score
    risk_score := risk_score
    grade := score_to_grade risk_adjusted_score
    recommendation := score_to_recommendation risk_adjusted_score risk_score }

/-- The ladder position of each letter grade, `A+` highest.  This encodes the
spec's A+ … F ordering so that monotonicity can be stated numerically. -/
def gradeRank (g : String) : ℕ :=
  if g = "A+" then 10
  else if g = "A" then 9
  else if g = "A-" then 8
  else if g = "B+" then 7
  else if g = "B" then 6
  else if g = "B-" then 5
  else if g = "C+" then 4
  else if g = "C" then 3
  else if g = "C-" then 2
  else if g = "D" then 1
  else 0

/-- The bucket position of each recommendation label, `STRONG_BUY` highest. -/
def recRank (g : String) : ℕ :=
  if g = "STRONG_BUY" then 5
  else if g = "BUY" then 4
  else if g = "MODERATE_BUY" then 3
  else if g = "HOLD_WATCH" then 2
  else if g = "WEAK_HOLD" then 1
  else 0

lemma social_score_nonneg (f : ℚ → ℚ) (c : CoinData)
    (hf : ∀ x : ℚ, 1 ≤ x → 0 ≤ f x) : 0 ≤ calculate_social_score f c := by
  unfold calculate_social_score
  refine le_min (add_nonneg (add_nonneg (add_nonneg ?_ ?_) ?_) ?_) (by norm_num)
  · split_ifs with h
    · exact le_min (by norm_num) (mul_nonneg (hf _ (le_max_right _ _)) (by norm_num))
    · exact le_rfl
  · split_ifs with h h2
    · exact add_nonneg
        (le_min (by norm_num) (mul_nonneg (hf _ (le_max_right _ _)) (by norm_num)))
        (le_min (by norm_num) (mul_nonneg (div_nonneg h2.le h.le) (by norm_num)))
    · exact add_nonneg
        (le_min (by norm_num) (mul_nonneg (hf _ (le_max_right _ _)) (by norm_num))) le_rfl
    · exact le_rfl
  · split_ifs with h
    · exact le_min (by norm_num) (mul_nonneg (hf _ (le_max_right _ _)) (by norm_num))
    · exact le_rfl
  · split_ifs with h
    · exact le_min (by norm_num) (mul_nonneg (hf _ (le_max_right _ _)) (by norm_num))
    · exact le_rfl

lemma social_score_le_100 (f : ℚ → ℚ) (c : CoinData) :
    calculate_social_score f c ≤ 100 := by
  unfold calculate_social_score; exact min_le_right _ _

lemma onchain_score_nonneg (c : CoinData) : 0 ≤ calculate_onchain_score c := by
  unfold calculate_onchain_score
  refine le_min
    (add_nonneg (add_nonneg (add_nonneg (add_nonneg ?_ ?_) ?_) ?_) ?_) (by norm_num)
  all_goals split_ifs <;> norm_num

lemma onchain_score_le_100 (c : CoinData) : calculate_onchain_score c ≤ 100 := by
  unfold calculate_onchain_score; exact min_le_right _ _

lemma development_score_nonneg (f : ℚ → ℚ) (c : CoinData)
    (hf : ∀ x : ℚ, 1 ≤ x → 0 ≤ f x) : 0 ≤ calculate_development_score f c := by
  unfold calculate_development_score
  refine le_min
    (add_nonneg (add_nonneg (add_nonneg (add_nonneg ?_ ?_) ?_) ?_) ?_) (by norm_num)
  · split_ifs <;> norm_num
  · split_ifs with h
    · exact le_min (by norm_num) (mul_nonneg (hf _ (le_max_right _ _)) (by norm_num))
    · exact le_rfl
  · split_ifs with h
    · exact le_min (by norm_num) (mul_nonneg (hf _ (le_max_right _ _)) (by norm_num))
    · exact le_rfl
  · split_ifs <;> norm_num
  · split_ifs <;> norm_num

lemma development_score_le_100 (f : ℚ → ℚ) (c : CoinData) :
    calculate_development_score f c ≤ 100 := by
  unfold calculate_development_score; exact min_le_right _ _

lemma liquidity_score_nonneg (c : CoinData) : 0 ≤ calculate_liquidity_score c := by
  unfold calculate_liquidity_score
  by_cases h : c.market_cap ≤ 0 ∨ c.total_volume ≤ 0
  · rw [if_pos h]
  · rw [if_neg h]
    refine le_min (add_nonneg (add_nonneg ?_ ?_) ?_) (by norm_num)
    all_goals split_ifs <;> norm_num

lemma liquidity_score_le_100 (c : CoinData) : calculate_liquidity_score c ≤ 100 := by
  unfold calculate_liquidity_score
  by_cases h : c.market_cap ≤ 0 ∨ c.total_volume ≤ 0
  · rw [if_pos h]; norm_num
  · rw [if_neg h]; exact min_le_right _ _

lemma holder_score_nonneg (c : CoinData) : 0 ≤ calculate_holder_score c := by
  unfold calculate_holder_score
  refine le_min ?_ (by norm_num)
  split_ifs <;> norm_num

lemma holder_score_le_100 (c : CoinData) : calculate_holder_score c ≤ 100 := by
  unfold calculate_holder_score; exact min_le_right _ _

lemma momentum_score_nonneg (c : CoinData) : 0 ≤ calculate_momentum_score c := by
  unfold calculate_momentum_score; exact le_max_left _ _

lemma momentum_score_le_100 (c : CoinData) : calculate_momentum_score c ≤ 100 := by
  unfold calculate_momentum_score
  exact max_le (by norm_num) (min_le_right _ _)

lemma trend_score_nonneg (c : CoinData) : 0 ≤ calculate_trend_score c := by
  unfold calculate_trend_score; exact le_max_left _ _

lemma trend_score_le_100 (c : CoinData) : calculate_trend_score c ≤ 100 := by
  unfold calculate_trend_score
  exact max_le (by norm_num) (min_le_right _ _)

lemma risk_score_nonneg (c : CoinData) : 0 ≤ calculate_risk_score c := by
  unfold calculate_risk_score
  refine le_min
    (add_nonneg (add_nonneg (add_nonneg (add_nonneg ?_ ?_) ?_) ?_) ?_) (by norm_num)
  all_goals split_ifs <;> norm_num

lemma risk_score_le_100 (c : CoinData) : calculate_risk_score c ≤ 100 := by
  unfold calculate_risk_score; exact min_le_right _ _

/-- A coin record on which every risk penalty fires: market cap below 1M (+30),
7-day change magnitude above 100 (+25), volume below 100k (+20), no social
presence (+15), zero commits (+10) — risk score exactly 100. -/
def riskiestCoin : CoinData := { price_change_percentage_7d := 150 }

/-- Claim C1 (counterexample): the risk multiplier `1 - risk/200` is not always
in the open-below interval (0.5, 1]: on `riskiestCoin` the risk score is
exactly 100 and the multiplier is exactly 1/2. -/
theorem risk_multiplier_can_reach_half :
    calculate_risk_score riskiestCoin = 100 ∧
    1 - calculate_risk_score riskiestCoin / 200 = 1 / 2 ∧
    ¬ (1 / 2 < 1 - calculate_risk_score riskiestCoin / 200) := by
  have h : calculate_risk_score riskiestCoin = 100 := by
    norm_num [calculate_risk_score, riskiestCoin, abs_of_pos]
  rw [h]
  norm_num

/-- Claim C1 (amended: the multiplier lies in the closed interval [0.5, 1]):
for every coin record, with nonnegative scoring weights, the risk-adjusted
score equals `total × (1 - risk/200)`, the risk score lies in [0, 100], the
risk multiplier lies in [1/2, 1], and hence the risk-adjusted score is at most
the total score and at least half of it. -/
theorem risk_adjusted_score_spec (w : ScoreWeights) (f : ℚ → ℚ) (c : CoinData)
    (hw1 : 0 ≤ w.social_weight) (hw2 : 0 ≤ w.onchain_weight) (hw3 : 0 ≤ w.dev_weight)
    (hw4 : 0 ≤ w.liquidity_weight) (hw5 : 0 ≤ w.holder_weight)
    (hf : ∀ x : ℚ, 1 ≤ x → 0 ≤ f x) :
    (calculate_comprehensive_score w f c).risk_adjusted_score =
      (calculate_comprehensive_score w f c).total_score *
        (1 - (calculate_comprehensive_score w f c).risk_score / 200) ∧
    0 ≤ (calculate_comprehensive_score w f c).risk_score ∧
    (calculate_comprehensive_score w f c).risk_score ≤ 100 ∧
    1 / 2 ≤ 1 - (calculate_comprehensive_score w f c).risk_score / 200 ∧
    1 - (calculate_comprehensive_score w f c).risk_score / 200 ≤ 1 ∧
    (calculate_comprehensive_score w f c).risk_adjusted_score ≤
      (calculate_comprehensive_score w f c).total_score ∧
    (calculate_comprehensive_score w f c).total_score / 2 ≤
      (calculate_comprehensive_score w f c).risk_adjusted_score := by
  have hr0 := risk_score_nonneg c
  have hr1 := risk_score_le_100 c
  have htot0 : 0 ≤ calculate_social_score f c * w.social_weight +
      calculate_onchain_score c * w.onchain_weight +
      calculate_development_score f c * w.dev_weight +
      calculate_liquidity_score c * w.liquidity_weight +
      calculate_holder_score c * w.holder_weight := by
    have := social_score_nonneg f c hf
    have := onchain_score_nonneg c
    have := development_score_nonneg f c hf
    have := liquidity_score_nonneg c
    have := holder_score_nonneg c
    have m1 := mul_nonneg (social_score_nonneg f c hf) hw1
    have m2 := mul_nonneg (onchain_score_nonneg c) hw2
    have m3 := mul_nonneg (development_score_nonneg f c hf) hw3
    have m4 := mul_nonneg (liquidity_score_nonneg c) hw4
    have m5 := mul_nonneg (holder_score_nonneg c) hw5
    linarith
  simp only [calculate_comprehensive_score]
  refine ⟨by trivial, hr0, hr1, by linarith, by linarith, ?_, ?_⟩
  · nlinarith
  · nlinarith

/-- Witness for `risk_adjusted_score_spec` at the default weights, the
trivial logarithm, and the all-zero coin record. -/
theorem risk_adjusted_score_spec_witness :
    (calculate_comprehensive_score defaultScoreWeights (fun _ => 0) {}).risk_adjusted_score =
      (calculate_comprehensive_score defaultScoreWeights (fun _ => 0) {}).total_score *
        (1 - (calculate_comprehensive_score defaultScoreWeights (fun _ => 0) {}).risk_score / 200) ∧
    0 ≤ (calculate_comprehensive_score defaultScoreWeights (fun _ => 0) {}).risk_score ∧
    (calculate_comprehensive_score defaultScoreWeights (fun _ => 0) {}).risk_score ≤ 100 ∧
    1 / 2 ≤ 1 - (calculate_comprehensive_score defaultScoreWeights (fun _ => 0) {}).risk_score / 200 ∧
    1 - (calculate_comprehensive_score defaultScoreWeights (fun _ => 0) {}).risk_score / 200 ≤ 1 ∧
    (calculate_comprehensive_score defaultScoreWeights (fun _ => 0) {}).risk_adjusted_score ≤
      (calculate_comprehensive_score defaultScoreWeights (fun _ => 0) {}).total_score ∧
    (calculate_comprehensive_score defaultScoreWeights (fun _ => 0) {}).total_score / 2 ≤
      (calculate_comprehensive_score defaultScoreWeights (fun _ => 0) {}).risk_adjusted_score :=
  risk_adjusted_score_spec defaultScoreWeights (fun _ => 0) {}
    (by norm_num [defaultScoreWeights]) (by norm_num [defaultScoreWeights])
    (by norm_num [defaultScoreWeights]) (by norm_num [defaultScoreWeights])
    (by norm_num [defaultScoreWeights]) (fun x _ => le_rfl)

/-- Claim C2: for every coin record, with nonnegative weights summing to 1,
every value produced by the calculator — the five dimension scores, the
momentum, trend and risk scores, the total score and the risk-adjusted
score — lies in [0, 100]. -/
theorem all_scores_in_range (w : ScoreWeights) (f : ℚ → ℚ) (c : CoinData)
    (hw1 : 0 ≤ w.social_weight) (hw2 : 0 ≤ w.onchain_weight) (hw3 : 0 ≤ w.dev_weight)
    (hw4 : 0 ≤ w.liquidity_weight) (hw5 : 0 ≤ w.holder_weight)
    (hsum : w.social_weight + w.onchain_weight + w.dev_weight +
      w.liquidity_weight + w.holder_weight = 1)
    (hf : ∀ x : ℚ, 1 ≤ x → 0 ≤ f x) :
    (0 ≤ (calculate_comprehensive_score w f c).social_score ∧
      (calculate_comprehensive_score w f c).social_score ≤ 100) ∧
    (0 ≤ (calculate_comprehensive_score w f c).onchain_score ∧
      (calculate_comprehensive_score w f c).onchain_score ≤ 100) ∧
    (0 ≤ (calculate_comprehensive_score w f c).development_score ∧
      (calculate_comprehensive_score w f c).development_score ≤ 100) ∧
    (0 ≤ (calculate_comprehensive_score w f c).liquidity_score ∧
      (calculate_comprehensive_score w f c).liquidity_score ≤ 100) ∧
    (0 ≤ (calculate_comprehensive_score w f c).holder_score ∧
      (calculate_comprehensive_score w f c).holder_score ≤ 100) ∧
    (0 ≤ (calculate_comprehensive_score w f c).momentum_score ∧
      (calculate_comprehensive_score w f c).momentum_score ≤ 100) ∧
    (0 ≤ (calculate_comprehensive_score w f c).trend_score ∧
      (calculate_comprehensive_score w f c).trend_score ≤ 100) ∧
    (0 ≤ (calculate_comprehensive_score w f c).risk_score ∧
      (calculate_comprehensive_score w f c).risk_score ≤ 100) ∧
    (0 ≤ (calculate_comprehensive_score w f c).total_score ∧
      (calculate_comprehensive_score w f c).total_score ≤ 100) ∧
    (0 ≤ (calculate_comprehensive_score w f c).risk_adjusted_score ∧
      (calculate_comprehensive_score w f c).risk_adjusted_score ≤ 100) := by
  have hs0 := social_score_nonneg f c hf
  have hs1 := social_score_le_100 f c
  have ho0 := onchain_score_nonneg c
  have ho1 := onchain_score_le_100 c
  have hd0 := development_score_nonneg f c hf
  have hd1 := development_score_le_100 f c
  have hl0 := liquidity_score_nonneg c
  have hl1 := liquidity_score_le_100 c
  have hh0 := holder_score_nonneg c
  have hh1 := holder_score_le_100 c
  have hm0 := momentum_score_nonneg c
  have hm1 := momentum_score_le_100 c
  have ht0 := trend_score_nonneg c
  have ht1 := trend_score_le_100 c
  have hr0 := risk_score_nonneg c
  have hr1 := risk_score_le_100 c
  have m1 := mul_nonneg hs0 hw1
  have m2 := mul_nonneg ho0 hw2
  have m3 := mul_nonneg hd0 hw3
  have m4 := mul_nonneg hl0 hw4
  have m5 := mul_nonneg hh0 hw5
  have u1 := mul_le_mul_of_nonneg_right hs1 hw1
  have u2 := mul_le_mul_of_nonneg_right ho1 hw2
  have u3 := mul_le_mul_of_nonneg_right hd1 hw3
  have u4 := mul_le_mul_of_nonneg_right hl1 hw4
  have u5 := mul_le_mul_of_nonneg_right hh1 hw5
  have htot0 : 0 ≤ calculate_social_score f c * w.social_weight +
      calculate_onchain_score c * w.onchain_weight +
      calculate_development_score f c * w.dev_weight +
      calculate_liquidity_score c * w.liquidity_weight +
      calculate_holder_score c * w.holder_weight := by linarith
  have htot1 : calculate_social_score f c * w.social_weight +
      calculate_onchain_score c * w.onchain_weight +
      calculate_development_score f c * w.dev_weight +
      calculate_liquidity_score c * w.liquidity_weight +
      calculate_holder_score c * w.holder_weight ≤ 100 := by linarith
  simp only [calculate_comprehensive_score]
  refine ⟨⟨hs0, hs1⟩, ⟨ho0, ho1⟩, ⟨hd0, hd1⟩, ⟨hl0, hl1⟩, ⟨hh0, hh1⟩,
    ⟨hm0, hm1⟩, ⟨ht0, ht1⟩, ⟨hr0, hr1⟩, ⟨htot0, htot1⟩, ?_, ?_⟩
  · nlinarith
  · nlinarith

/-- Witness for `all_scores_in_range` at the default weights, the trivial
logarithm, and the all-zero coin record. -/
theorem all_scores_in_range_witness :
    (0 ≤ (calculate_comprehensive_score defaultScoreWeights (fun _ => 0) {}).social_score ∧
      (calculate_comprehensive_score defaultScoreWeights (fun _ => 0) {}).social_score ≤ 100) ∧
    (0 ≤ (calculate_comprehensive_score defaultScoreWeights (fun _ => 0) {}).onchain_score ∧
      (calculate_comprehensive_score defaultScoreWeights (fun _ => 0) {}).onchain_score ≤ 100) ∧
    (0 ≤ (calculate_comprehensive_score defaultScoreWeights (fun _ => 0) {}).development_score ∧
      (calculate_comprehensive_score defaultScoreWeights (fun _ => 0) {}).development_score ≤ 100) ∧
    (0 ≤ (calculate_comprehensive_score defaultScoreWeights (fun _ => 0) {}).liquidity_score ∧
      (calculate_comprehensive_score defaultScoreWeights (fun _ => 0) {}).liquidity_score ≤ 100) ∧
    (0 ≤ (calculate_comprehensive_score defaultScoreWeights (fun _ => 0) {}).holder_score ∧
      (calculate_comprehensive_score defaultScoreWeights (fun _ => 0) {}).holder_score ≤ 100) ∧
    (0 ≤ (calculate_comprehensive_score defaultScoreWeights (fun _ => 0) {}).momentum_score ∧
      (calculate_comprehensive_score defaultScoreWeights (fun _ => 0) {}).momentum_score ≤ 100) ∧
    (0 ≤ (calculate_comprehensive_score defaultScoreWeights (fun _ => 0) {}).trend_score ∧
      (calculate_comprehensive_score defaultScoreWeights (fun _ => 0) {}).trend_score ≤ 100) ∧
    (0 ≤ (calculate_comprehensive_score defaultScoreWeights (fun _ => 0) {}).risk_score ∧
      (calculate_comprehensive_score defaultScoreWeights (fun _ => 0) {}).risk_score ≤ 100) ∧
    (0 ≤ (calculate_comprehensive_score defaultScoreWeights (fun _ => 0) {}).total_score ∧
      (calculate_comprehensive_score defaultScoreWeights (fun _ => 0) {}).total_score ≤ 100) ∧
    (0 ≤ (calculate_comprehensive_score defaultScoreWeights (fun _ => 0) {}).risk_adjusted_score ∧
      (calculate_comprehensive_score defaultScoreWeights (fun _ => 0) {}).risk_adjusted_score ≤ 100) :=
  all_scores_in_range defaultScoreWeights (fun _ => 0) {}
    (by norm_num [defaultScoreWeights]) (by norm_num [defaultScoreWeights])
    (by norm_num [defaultScoreWeights]) (by norm_num [defaultScoreWeights])
    (by norm_num [defaultScoreWeights]) (by norm_num [defaultScoreWeights])
    (fun x _ => le_rfl)

/-- Claim C10: a coin whose 24h and 7d price-change percentages are both zero
(or absent, defaulting to 0) gets momentum score exactly 35, not the neutral
50: the zero 24h change lands in the `> -5` band (−5) and the zero 7d change
in the `> -10` band (−10). -/
theorem momentum_score_zero_changes (c : CoinData)
    (h24 : c.price_change_percentage_24h = 0)
    (h7 : c.price_change_percentage_7d = 0) :
    calculate_momentum_score c = 35 := by
  unfold calculate_momentum_score
  rw [h24, h7]
  norm_num

/-- Witness for `momentum_score_zero_changes` on the all-zero coin record. -/
theorem momentum_score_zero_changes_witness :
    calculate_momentum_score {} = 35 :=
  momentum_score_zero_changes {} rfl rfl

lemma recRank_ge_strong (s r : ℚ) (h1 : 85 ≤ s) (h2 : r ≤ 30) :
    5 ≤ recRank (score_to_recommendation s r) := by
  unfold score_to_recommendation
  rw [if_pos ⟨h1, h2⟩]
  decide

lemma recRank_ge_buy (s r : ℚ) (h1 : 75 ≤ s) (h2 : r ≤ 40) :
    4 ≤ recRank (score_to_recommendation s r) := by
  unfold score_to_recommendation
  by_cases h5 : 85 ≤ s ∧ r ≤ 30
  · rw [if_pos h5]; decide
  · rw [if_neg h5, if_pos ⟨h1, h2⟩]; decide

lemma recRank_ge_moderate (s r : ℚ) (h1 : 65 ≤ s) (h2 : r ≤ 50) :
    3 ≤ recRank (score_to_recommendation s r) := by
  unfold score_to_recommendation
  by_cases h5 : 85 ≤ s ∧ r ≤ 30
  · rw [if_pos h5]; decide
  · rw [if_neg h5]
    by_cases h4 : 75 ≤ s ∧ r ≤ 40
    · rw [if_pos h4]; decide
    · rw [if_neg h4, if_pos ⟨h1, h2⟩]; decide

lemma recRank_ge_hold (s r : ℚ) (h1 : 55 ≤ s) :
    2 ≤ recRank (score_to_recommendation s r) := by
  unfold score_to_recommendation
  by_cases h5 : 85 ≤ s ∧ r ≤ 30
  · rw [if_pos h5]; decide
  · rw [if_neg h5]
    by_cases h4 : 75 ≤ s ∧ r ≤ 40
    · rw [if_pos h4]; decide
    · rw [if_neg h4]
      by_cases h3 : 65 ≤ s ∧ r ≤ 50
      · rw [if_pos h3]; decide
      · rw [if_neg h3, if_pos h1]; decide

lemma recRank_ge_weak (s r : ℚ) (h1 : 45 ≤ s) :
    1 ≤ recRank (score_to_recommendation s r) := by
  unfold score_to_recommendation
  by_cases h5 : 85 ≤ s ∧ r ≤ 30
  · rw [if_pos h5]; decide
  · rw [if_neg h5]
    by_cases h4 : 75 ≤ s ∧ r ≤ 40
    · rw [if_pos h4]; decide
    · rw [if_neg h4]
      by_cases h3 : 65 ≤ s ∧ r ≤ 50
      · rw [if_pos h3]; decide
      · rw [if_neg h3]
        by_cases h2 : 55 ≤ s
        · rw [if_pos h2]; decide
        · rw [if_neg h2, if_pos h1]; decide

lemma gradeRank_ge_10 (s : ℚ) (h : 90 ≤ s) : 10 ≤ gradeRank (score_to_grade s) := by
  unfold score_to_grade; rw [if_pos h]; decide

lemma gradeRank_ge_9 (s : ℚ) (h : 85 ≤ s) : 9 ≤ gradeRank (score_to_grade s) := by
  by_cases hp : 90 ≤ s
  · exact le_trans (by norm_num) (gradeRank_ge_10 s hp)
  · unfold score_to_grade; rw [if_neg hp, if_pos h]; decide

lemma gradeRank_ge_8 (s : ℚ) (h : 80 ≤ s) : 8 ≤ gradeRank (score_to_grade s) := by
  by_cases hp : 85 ≤ s
  · exact le_trans (by norm_num) (gradeRank_ge_9 s hp)
  · unfold score_to_grade
    rw [if_neg (by linarith : ¬ (90 : ℚ) ≤ s), if_neg hp, if_pos h]; decide

lemma gradeRank_ge_7 (s : ℚ) (h : 75 ≤ s) : 7 ≤ gradeRank (score_to_grade s) := by
  by_cases hp : 80 ≤ s
  · exact le_trans (by norm_num) (gradeRank_ge_8 s hp)
  · unfold score_to_grade
    rw [if_neg (by linarith : ¬ (90 : ℚ) ≤ s), if_neg (by linarith : ¬ (85 : ℚ) ≤ s),
      if_neg hp, if_pos h]
    decide

lemma gradeRank_ge_6 (s : ℚ) (h : 70 ≤ s) : 6 ≤ gradeRank (score_to_grade s) := by
  by_cases hp : 75 ≤ s
  · exact le_trans (by norm_num) (gradeRank_ge_7 s hp)
  · unfold score_to_grade
    rw [if_neg (by linarith : ¬ (90 : ℚ) ≤ s), if_neg (by linarith : ¬ (85 : ℚ) ≤ s),
      if_neg (by linarith : ¬ (80 : ℚ) ≤ s), if_neg hp, if_pos h]
    decide

lemma gradeRank_ge_5 (s : ℚ) (h : 65 ≤ s) : 5 ≤ gradeRank (score_to_grade s) := by
  by_cases hp : 70 ≤ s
  · exact le_trans (by norm_num) (gradeRank_ge_6 s hp)
  · unfold score_to_grade
    rw [if_neg (by linarith : ¬ (90 : ℚ) ≤ s), if_neg (by linarith : ¬ (85 : ℚ) ≤ s),
      if_neg (by linarith : ¬ (80 : ℚ) ≤ s), if_neg (by linarith : ¬ (75 : ℚ) ≤ s),
      if_neg hp, if_pos h]
    decide

lemma gradeRank_ge_4 (s : ℚ) (h : 60 ≤ s) : 4 ≤ gradeRank (score_to_grade s) := by
  by_cases hp : 65 ≤ s
  · exact le_trans (by norm_num) (gradeRank_ge_5 s hp)
  · unfold score_to_grade
    rw [if_neg (by linarith : ¬ (90 : ℚ) ≤ s), if_neg (by linarith : ¬ (85 : ℚ) ≤ s),
      if_neg (by linarith : ¬ (80 : ℚ) ≤ s), if_neg (by linarith : ¬ (75 : ℚ) ≤ s),
      if_neg (by linarith : ¬ (70 : ℚ) ≤ s), if_neg hp, if_pos h]
    decide

lemma gradeRank_ge_3 (s : ℚ) (h : 55 ≤ s) : 3 ≤ gradeRank (score_to_grade s) := by
  by_cases hp : 60 ≤ s
  · exact le_trans (by norm_num) (gradeRank_ge_4 s hp)
  · unfold score_to_grade
    rw [if_neg (by linarith : ¬ (90 : ℚ) ≤ s), if_neg (by linarith : ¬ (85 : ℚ) ≤ s),
      if_neg (by linarith : ¬ (80 : ℚ) ≤ s), if_neg (by linarith : ¬ (75 : ℚ) ≤ s),
      if_neg (by linarith : ¬ (70 : ℚ) ≤ s), if_neg (by linarith : ¬ (65 : ℚ) ≤ s),
      if_neg hp, if_pos h]
    decide

lemma gradeRank_ge_2 (s : ℚ) (h : 50 ≤ s) : 2 ≤ gradeRank (score_to_grade s) := by
  by_cases hp : 55 ≤ s
  · exact le_trans (by norm_num) (gradeRank_ge_3 s hp)
  · unfold score_to_grade
    rw [if_neg (by linarith : ¬ (90 : ℚ) ≤ s), if_neg (by linarith : ¬ (85 : ℚ) ≤ s),
      if_neg (by linarith : ¬ (80 : ℚ) ≤ s), if_neg (by linarith : ¬ (75 : ℚ) ≤ s),
      if_neg (by linarith : ¬ (70 : ℚ) ≤ s), if_neg (by linarith : ¬ (65 : ℚ) ≤ s),
      if_neg (by linarith : ¬ (60 : ℚ) ≤ s), if_neg hp, if_pos h]
    decide

lemma gradeRank_ge_1 (s : ℚ) (h : 40 ≤ s) : 1 ≤ gradeRank (score_to_grade s) := by
  by_cases hp : 50 ≤ s
  · exact le_trans (by norm_num) (gradeRank_ge_2 s hp)
  · unfold score_to_grade
    rw [if_neg (by linarith : ¬ (90 : ℚ) ≤ s), if_neg (by linarith : ¬ (85 : ℚ) ≤ s),
      if_neg (by linarith : ¬ (80 : ℚ) ≤ s), if_neg (by linarith : ¬ (75 : ℚ) ≤ s),
      if_neg (by linarith : ¬ (70 : ℚ) ≤ s), if_neg (by linarith : ¬ (65 : ℚ) ≤ s),
      if_neg (by linarith : ¬ (60 : ℚ) ≤ s), if_neg (by linarith : ¬ (55 : ℚ) ≤ s),
      if_neg hp, if_pos h]
    decide

/-- The grade band a score falls into, as its ladder rank.  Mirrors the
threshold chain of `_score_to_grade` numerically. -/
def gradeBand (s : ℚ) : ℕ :=
  if 90 ≤ s then 10
  else if 85 ≤ s then 9
  else if 80 ≤ s then 8
  else if 75 ≤ s then 7
  else if 70 ≤ s then 6
  else if 65 ≤ s then 5
  else if 60 ≤ s then 4
  else if 55 ≤ s then 3
  else if 50 ≤ s then 2
  else if 40 ≤ s then 1
  else 0

set_option maxHeartbeats 1000000 in
lemma gradeRank_score_to_grade (s : ℚ) :
    gradeRank (score_to_grade s) = gradeBand s := by
  unfold score_to_grade gradeBand
  split_ifs <;> rfl

set_option maxHeartbeats 2000000 in
/-- Claim C8: the grade and recommendation mappings are monotonic in score —
for risk-adjusted scores `s2 < s1` at the same risk score, `_score_to_grade`
never assigns `s1` a worse letter on the A+ … F ladder, and
`_score_to_recommendation` never assigns `s1` a worse bucket. -/
theorem grade_recommendation_monotone (s1 s2 r : ℚ) (h : s2 < s1) :
    gradeRank (score_to_grade s2) ≤ gradeRank (score_to_grade s1) ∧
    recRank (score_to_recommendation s2 r) ≤ recRank (score_to_recommendation s1 r) := by
  constructor
  · rw [gradeRank_score_to_grade s2]
    unfold gradeBand
    split_ifs with h10 h9 h8 h7 h6 h5 h4 h3 h2 h1
    · exact gradeRank_ge_10 s1 (le_trans h10 h.le)
    · exact gradeRank_ge_9 s1 (le_trans h9 h.le)
    · exact gradeRank_ge_8 s1 (le_trans h8 h.le)
    · exact gradeRank_ge_7 s1 (le_trans h7 h.le)
    · exact gradeRank_ge_6 s1 (le_trans h6 h.le)
    · exact gradeRank_ge_5 s1 (le_trans h5 h.le)
    · exact gradeRank_ge_4 s1 (le_trans h4 h.le)
    · exact gradeRank_ge_3 s1 (le_trans h3 h.le)
    · exact gradeRank_ge_2 s1 (le_trans h2 h.le)
    · exact gradeRank_ge_1 s1 (le_trans h1 h.le)
    · exact Nat.zero_le _
  · by_cases h5 : 85 ≤ s2 ∧ r ≤ 30
    · have e2 : recRank (score_to_recommendation s2 r) = 5 := by
        unfold score_to_recommendation; rw [if_pos h5]; rfl
      rw [e2]
      exact recRank_ge_strong s1 r (le_trans h5.1 h.le) h5.2
    · by_cases h4 : 75 ≤ s2 ∧ r ≤ 40
      · have e2 : recRank (score_to_recommendation s2 r) = 4 := by
          unfold score_to_recommendation; rw [if_neg h5, if_pos h4]; rfl
        rw [e2]
        exact recRank_ge_buy s1 r (le_trans h4.1 h.le) h4.2
      · by_cases h3 : 65 ≤ s2 ∧ r ≤ 50
        · have e2 : recRank (score_to_recommendation s2 r) = 3 := by
            unfold score_to_recommendation; rw [if_neg h5, if_neg h4, if_pos h3]; rfl
          rw [e2]
          exact recRank_ge_moderate s1 r (le_trans h3.1 h.le) h3.2
        · by_cases hh : 55 ≤ s2
          · have e2 : recRank (score_to_recommendation s2 r) = 2 := by
              unfold score_to_recommendation
              rw [if_neg h5, if_neg h4, if_neg h3, if_pos hh]; rfl
            rw [e2]
            exact recRank_ge_hold s1 r (le_trans hh h.le)
          · by_cases hw : 45 ≤ s2
            · have e2 : recRank (score_to_recommendation s2 r) = 1 := by
                unfold score_to_recommendation
                rw [if_neg h5, if_neg h4, if_neg h3, if_neg hh, if_pos hw]; rfl
              rw [e2]
              exact recRank_ge_weak s1 r (le_trans hw h.le)
            · have e2 : recRank (score_to_recommendation s2 r) = 0 := by
                unfold score_to_recommendation
                rw [if_neg h5, if_neg h4, if_neg h3, if_neg hh, if_neg hw]; rfl
              rw [e2]
              exact Nat.zero_le _

/-- Witness for `grade_recommendation_monotone` at scores 90 > 50, risk 0. -/
theorem grade_recommendation_monotone_witness :
    gradeRank (score_to_grade 50) ≤ gradeRank (score_to_grade 90) ∧
    recRank (score_to_recommendation 50 0) ≤ recRank (score_to_recommendation 90 0) :=
  grade_recommendation_monotone 90 50 0 (by norm_num)

/-- Python `dict.get` on an association list; later insertions are consed in
front, so the head-first scan returns the most recent binding, as a dict does. -/
def assocGet {β : Type} (k : String) : List (String × β) → Option β
  | [] => none
  | p :: rest => if k = p.1 then some p.2 else assocGet k rest

/-- Python truthiness of an optional string: `None` and the empty string are
falsy, every other string is truthy. -/
def optStrTruthy : Option String → Bool
  | none => false
  | some s => if s = "" then false else true

/-- Python `str.lower()` (ASCII range, which covers the hex addresses the
tracker compares): lowercase every character of the string. -/
def lowercase (s : String) : String :=
  ⟨s.data.map Char.toLower⟩

/-- `WhaleTracker.is_exchange_address`
(src/trademind/monitors/whale_tracker.py, lines 22-24):
`self.exchange_addresses.get(address.lower())`. -/
def is_exchange_address (exchange_addresses : List (String × String))
    (address : String) : Option String :=
  assocGet (lowercase address) exchange_addresses

/-- Parsed transfer record as produced by `BSCScanClient.parse_transaction`
(src/trademind/collectors/bscscan.py, lines 142-165). -/
structure TransferTx where
  hash : String
  from_address : String
  to_address : String
  contract_address : String
  token_symbol : String
  token_name : String
  value_raw : ℤ
  value_tokens : ℚ
  timestamp : ℤ
  block_number : ℤ
  gas_price : ℤ
  gas_used : ℤ
deriving DecidableEq

/-- The classification dictionary built by `WhaleTracker.classify_transaction`. -/
structure Classification where
  from_exchange : Option String
  to_exchange : Option String
  direction : Option String
  risk_level : String
deriving DecidableEq

/-- `WhaleTracker.classify_transaction`
(src/trademind/monitors/whale_tracker.py, lines 26-51): a four-way decision on
the truthiness of the two exchange-table lookups. -/
def classify_transaction (exchange_addresses : List (String × String))
    (tx : TransferTx) : Classification :=
  let from_exchange := is_exchange_address exchange_addresses tx.from_address
  let to_exchange := is_exchange_address exchange_addresses tx.to_address
  if optStrTruthy from_exchange && ! optStrTruthy to_exchange then
    { from_exchange := from_exchange, to_exchange := to_exchange,
      direction := some "EXCHANGE_OUTFLOW", risk_level := "HIGH" }
  else if ! optStrTruthy from_exchange && optStrTruthy to_exchange then
    { from_exchange := from_exchange, to_exchange := to_exchange,
      direction := some "EXCHANGE_INFLOW", risk_level := "HIGH" }
  else if optStrTruthy from_exchange && optStrTruthy to_exchange then
    { from_exchange := from_exchange, to_exchange := to_exchange,
      direction := some "EXCHANGE_TO_EXCHANGE", risk_level := "LOW" }
  else
    { from_exchange := from_exchange, to_exchange := to_exchange,
      direction := some "WALLET_TO_WALLET", risk_level := "MEDIUM" }

/-- `WhaleTracker.is_whale_transaction`
(src/trademind/monitors/whale_tracker.py, lines 53-56):
`value_tokens * token_price_usd >= whale_threshold_usd`. -/
def is_whale_transaction (whale_threshold_usd : ℚ) (tx : TransferTx)
    (token_price_usd : ℚ) : Bool :=
  decide (whale_threshold_usd ≤ tx.value_tokens * token_price_usd)

/-- Raw transfer record from the BSCScan `tokentx` endpoint: every field is a
JSON string; the keys are `hash`, `from`, `to`, `contractAddress`,
`tokenSymbol`, `tokenName`, `value`, `tokenDecimal`, `timeStamp`,
`blockNumber`, `gasPrice`, `gasUsed`. -/
structure RawTransfer where
  hash : String
  from_field : String
  to_field : String
  contractAddress : String
  tokenSymbol : String
  tokenName : String
  value : String
  tokenDecimal : String
  timeStamp : String
  blockNumber : String
  gasPrice : String
  gasUsed : String
deriving DecidableEq

/-- `BSCScanClient.parse_transaction`
(src/trademind/collectors/bscscan.py, lines 142-165): integer fields are
parsed from their strings, `value_tokens = value / 10 ** tokenDecimal`, and a
conversion failure (ValueError/TypeError) yields `None`. -/
def parse_transaction (tx : RawTransfer) : Option TransferTx :=
  match tx.value.toInt?, tx.tokenDecimal.toInt?, tx.timeStamp.toInt?,
    tx.blockNumber.toInt?, tx.gasPrice.toInt?, tx.gasUsed.toInt? with
  | some value_wei, some decimals, some ts, some bn, some gp, some gu =>
    some { hash := tx.hash, from_address := tx.from_field, to_address := tx.to_field,
           contract_address := tx.contractAddress, token_symbol := tx.tokenSymbol,
           token_name := tx.tokenName, value_raw := value_wei,
           value_tokens := (value_wei : ℚ) / (10 : ℚ) ^ decimals,
           timestamp := ts, block_number := bn, gas_price := gp, gas_used := gu }
  | _, _, _, _, _, _ => none

/-- A `WhaleTransaction` as emitted by the scan: the parsed record enriched
with its classification and USD value. -/
structure WhaleRecord where
  tx : TransferTx
  classification : Classification
  usd_value : ℚ
deriving DecidableEq

/-- The loop of `WhaleTracker.scan_recent_transactions_sync`
(src/trademind/monitors/whale_tracker.py, lines 84-107): skip unparsable and
already-seen records; emit (and remember) a record exactly when
`is_whale_transaction` holds. -/
def scan_go (thr : ℚ) (table : List (String × String)) (price : ℚ) :
    List RawTransfer → List String → List WhaleRecord → List WhaleRecord
  | [], _, acc => acc
  | raw :: rest, known, acc =>
    match parse_transaction raw with
    | none => scan_go thr table price rest known acc
    | some tx =>
      if tx.hash ∈ known then scan_go thr table price rest known acc
      else if is_whale_transaction thr tx price then
        scan_go thr table price rest (tx.hash :: known)
          (acc ++ [⟨tx, classify_transaction table tx, tx.value_tokens * price⟩])
      else scan_go thr table price rest known acc

/-- `WhaleTracker.scan_recent_transactions_sync`, with the tracker state
(threshold, exchange table, seen-hash set) and the fetched transfer list as
explicit arguments. -/
def scan_recent_transactions_sync (whale_threshold_usd : ℚ)
    (exchange_addresses : List (String × String)) (known_transactions : List String)
    (transactions : List RawTransfer) (token_price_usd : ℚ) : List WhaleRecord :=
  scan_go whale_threshold_usd exchange_addresses token_price_usd
    transactions known_transactions []

lemma assocGet_mem {β : Type} (k : String) (v : β) :
    ∀ l : List (String × β), assocGet k l = some v → (k, v) ∈ l := by
  intro l
  induction l with
  | nil => intro hv; simp [assocGet] at hv
  | cons p rest ih =>
    intro hv
    by_cases hk : k = p.1
    · rw [assocGet, if_pos hk] at hv
      injection hv with hv
      subst hk; subst hv
      exact List.mem_cons_self _ _
    · rw [assocGet, if_neg hk] at hv
      exact List.mem_cons_of_mem _ (ih hv)

lemma optStrTruthy_isSome (table : List (String × String))
    (hN : ∀ p ∈ table, p.2 ≠ "") (a : String) :
    optStrTruthy (is_exchange_address table a) = (is_exchange_address table a).isSome := by
  cases hx : is_exchange_address table a with
  | none => rfl
  | some s =>
    have hmem : (lowercase a, s) ∈ table := assocGet_mem _ s table hx
    have hs : s ≠ "" := hN _ hmem
    simp [optStrTruthy, hs]

/-- Claim C3: `classify_transaction` is exhaustive and mutually exclusive over
the four-cell address table — with the sender in the exchange table and the
receiver not, the direction is EXCHANGE_OUTFLOW at risk HIGH; receiver only,
EXCHANGE_INFLOW at HIGH; both, EXCHANGE_TO_EXCHANGE at LOW; neither,
WALLET_TO_WALLET at MEDIUM.  (Exchange names in the configured table are
non-empty strings, so a lookup hit is exactly a truthy value.) -/
theorem classify_transaction_table (table : List (String × String)) (tx : TransferTx)
    (hN : ∀ p ∈ table, p.2 ≠ "") :
    ((is_exchange_address table tx.from_address).isSome = true →
      (is_exchange_address table tx.to_address).isSome = false →
      (classify_transaction table tx).direction = some "EXCHANGE_OUTFLOW" ∧
      (classify_transaction table tx).risk_level = "HIGH") ∧
    ((is_exchange_address table tx.from_address).isSome = false →
      (is_exchange_address table tx.to_address).isSome = true →
      (classify_transaction table tx).direction = some "EXCHANGE_INFLOW" ∧
      (classify_transaction table tx).risk_level = "HIGH") ∧
    ((is_exchange_address table tx.from_address).isSome = true →
      (is_exchange_address table tx.to_address).isSome = true →
      (classify_transaction table tx).direction = some "EXCHANGE_TO_EXCHANGE" ∧
      (classify_transaction table tx).risk_level = "LOW") ∧
    ((is_exchange_address table tx.from_address).isSome = false →
      (is_exchange_address table tx.to_address).isSome = false →
      (classify_transaction table tx).direction = some "WALLET_TO_WALLET" ∧
      (classify_transaction table tx).risk_level = "MEDIUM") := by
  have hf := optStrTruthy_isSome table hN tx.from_address
  have ht := optStrTruthy_isSome table hN tx.to_address
  refine ⟨fun h1 h2 => ?_, fun h1 h2 => ?_, fun h1 h2 => ?_, fun h1 h2 => ?_⟩ <;>
    simp [classify_transaction, hf, ht, h1, h2]

/-- Demonstration exchange table and transactions for the witnesses. -/
def demoTable : List (String × String) := [("0xaaa", "Binance"), ("0xbbb", "Kraken")]

/-- A transfer out of a table address to an unknown wallet. -/
def demoOutflowTx : TransferTx :=
  { hash := "0xh1", from_address := "0xAAA", to_address := "0xccc",
    contract_address := "0xc", token_symbol := "TKN", token_name := "Token",
    value_raw := 200000, value_tokens := 200000, timestamp := 1700000000,
    block_number := 1, gas_price := 0, gas_used := 0 }

/-- Witness for `classify_transaction_table`: on `demoTable`, a transfer from
a listed address to an unlisted one is EXCHANGE_OUTFLOW at risk HIGH. -/
theorem classify_transaction_table_witness :
    (classify_transaction demoTable demoOutflowTx).direction = some "EXCHANGE_OUTFLOW" ∧
    (classify_transaction demoTable demoOutflowTx).risk_level = "HIGH" :=
  (classify_transaction_table demoTable demoOutflowTx (by decide)).1 (by decide) (by decide)

lemma scan_go_sound (thr price : ℚ) (table : List (String × String)) :
    ∀ (txs : List RawTransfer) (known : List String) (acc : List WhaleRecord),
      (∀ w ∈ acc, thr ≤ w.tx.value_tokens * price) →
      ∀ w ∈ scan_go thr table price txs known acc, thr ≤ w.tx.value_tokens * price := by
  intro txs
  induction txs with
  | nil =>
    intro known acc hacc w hw
    exact hacc w (by simpa [scan_go] using hw)
  | cons raw rest ih =>
    intro known acc hacc w hw
    cases hp : parse_transaction raw with
    | none =>
      simp only [scan_go, hp] at hw
      exact ih known acc hacc w hw
    | some tx =>
      simp only [scan_go, hp] at hw
      by_cases hk : tx.hash ∈ known
      · rw [if_pos hk] at hw
        exact ih known acc hacc w hw
      · rw [if_neg hk] at hw
        by_cases hwh : is_whale_transaction thr tx price = true
        · rw [if_pos hwh] at hw
          refine ih _ _ (fun w2 hw2 => ?_) w hw
          rcases List.mem_append.mp hw2 with hmem | hmem
          · exact hacc w2 hmem
          · have he : w2 = ⟨tx, classify_transaction table tx, tx.value_tokens * price⟩ := by
              simpa using hmem
            subst he
            simpa [is_whale_transaction] using hwh
        · rw [if_neg hwh] at hw
          exact ih known acc hacc w hw

/-- Claim C4: a transaction is classified as a whale exactly when
`value_tokens × token_price_usd ≥ whale_threshold_usd`; a 200,000-token
transfer at price 1.0 is a whale at threshold 100,000 and not at 500,000; and
the synchronous scan only emits records satisfying the inequality. -/
theorem whale_threshold_spec :
    (∀ (thr price : ℚ) (tx : TransferTx),
      is_whale_transaction thr tx price = true ↔ thr ≤ tx.value_tokens * price) ∧
    (∀ tx : TransferTx, tx.value_tokens = 200000 →
      is_whale_transaction 100000 tx 1 = true ∧
      is_whale_transaction 500000 tx 1 = false) ∧
    (∀ (thr price : ℚ) (table : List (String × String)) (known : List String)
      (txs : List RawTransfer),
      ∀ w ∈ scan_recent_transactions_sync thr table known txs price,
        thr ≤ w.tx.value_tokens * price) := by
  refine ⟨?_, ?_, ?_⟩
  · intro thr price tx
    simp [is_whale_transaction]
  · intro tx h
    constructor
    · simp only [is_whale_transaction, h, decide_eq_true_eq]
      norm_num
    · simp only [is_whale_transaction, h, decide_eq_false_iff_not]
      norm_num
  · intro thr price table known txs w hw
    exact scan_go_sound thr price table txs known [] (by simp) w hw

/-- Witness for `whale_threshold_spec`: the 200,000-token example transaction
is a whale at threshold 100,000 and not at 500,000. -/
theorem whale_threshold_spec_witness :
    is_whale_transaction 100000 demoOutflowTx 1 = true ∧
    is_whale_transaction 500000 demoOutflowTx 1 = false :=
  whale_threshold_spec.2.1 demoOutflowTx rfl

/-- The filtering configuration of `GemFinder.__init__`
(src/trademind/analyzers/gem_finder.py, lines 13-30); only the three bounds
read by `_is_gem_candidate` are modeled. -/
structure GemConfig where
  min_market_cap : ℚ
  max_market_cap : ℚ
  min_volume_24h : ℚ
deriving DecidableEq

/-- The constructor defaults of `GemFinder`. -/
def defaultGemConfig : GemConfig := ⟨1000000, 100000000, 100000⟩

/-- `GemFinder._is_gem_candidate`
(src/trademind/analyzers/gem_finder.py, lines 195-225): market cap within the
configured bounds, 24h volume at least the configured minimum, turnover ratio
at least 1% (checked only when market cap is positive), and a nonzero Twitter
or Reddit following. -/
def is_gem_candidate (cfg : GemConfig) (c : CoinData) : Bool :=
  if ¬ (cfg.min_market_cap ≤ c.market_cap ∧ c.market_cap ≤ cfg.max_market_cap) then false
  else if c.total_volume < cfg.min_volume_24h then false
  else if 0 < c.market_cap ∧ c.total_volume / c.market_cap < 0.01 then false
  else if c.twitter_followers = 0 ∧ c.reddit_subscribers = 0 then false
  else true

/-- Claim C5: for a configuration with a positive minimum market cap (as the
defaults are), `_is_gem_candidate` accepts a coin exactly when the market cap
is within the configured bounds, the 24h volume meets the configured minimum,
the volume/market-cap turnover is at least 1%, and the coin has nonzero
Twitter followers or nonzero Reddit subscribers. -/
theorem is_gem_candidate_iff (cfg : GemConfig) (c : CoinData)
    (hmin : 0 < cfg.min_market_cap) :
    is_gem_candidate cfg c = true ↔
      (cfg.min_market_cap ≤ c.market_cap ∧ c.market_cap ≤ cfg.max_market_cap) ∧
      cfg.min_volume_24h ≤ c.total_volume ∧
      0.01 ≤ c.total_volume / c.market_cap ∧
      (c.twitter_followers ≠ 0 ∨ c.reddit_subscribers ≠ 0) := by
  unfold is_gem_candidate
  by_cases h1 : cfg.min_market_cap ≤ c.market_cap ∧ c.market_cap ≤ cfg.max_market_cap
  · rw [if_neg (not_not_intro h1)]
    by_cases h2 : c.total_volume < cfg.min_volume_24h
    · rw [if_pos h2]
      exact iff_of_false (by simp) (fun hh => absurd hh.2.1 (not_le.mpr h2))
    · rw [if_neg h2]
      by_cases h3 : 0 < c.market_cap ∧ c.total_volume / c.market_cap < 0.01
      · rw [if_pos h3]
        exact iff_of_false (by simp) (fun hh => absurd hh.2.2.1 (not_le.mpr h3.2))
      · rw [if_neg h3]
        by_cases h4 : c.twitter_followers = 0 ∧ c.reddit_subscribers = 0
        · rw [if_pos h4]
          exact iff_of_false (by simp)
            (fun hh => hh.2.2.2.elim (fun ha => ha h4.1) (fun hb => hb h4.2))
        · rw [if_neg h4]
          refine iff_of_true rfl ⟨h1, not_lt.mp h2, ?_, ?_⟩
          · have hmc : 0 < c.market_cap := lt_of_lt_of_le hmin h1.1
            rcases not_and_or.mp h3 with h | h
            · exact absurd hmc h
            · exact not_lt.mp h
          · rcases not_and_or.mp h4 with h | h
            · exact Or.inl h
            · exact Or.inr h
  · rw [if_pos h1]
    exact iff_of_false (by simp) (fun hh => h1 hh.1)

/-- The spec's worked example: market cap 25M, volume 2.5M (10% turnover),
15k Twitter followers. -/
def demoGemCoin : CoinData :=
  { market_cap := 25000000, total_volume := 2500000, twitter_followers := 15000 }

/-- Witness for `is_gem_candidate_iff` at the default configuration on the
spec's example coin. -/
theorem is_gem_candidate_iff_witness :
    is_gem_candidate defaultGemConfig demoGemCoin = true ↔
      (defaultGemConfig.min_market_cap ≤ demoGemCoin.market_cap ∧
        demoGemCoin.market_cap ≤ defaultGemConfig.max_market_cap) ∧
      defaultGemConfig.min_volume_24h ≤ demoGemCoin.total_volume ∧
      0.01 ≤ demoGemCoin.total_volume / demoGemCoin.market_cap ∧
      (demoGemCoin.twitter_followers ≠ 0 ∨ demoGemCoin.reddit_subscribers ≠ 0) :=
  is_gem_candidate_iff defaultGemConfig demoGemCoin (by norm_num [defaultGemConfig])

/-- A gem candidate as consumed by `GemFinder._deduplicate_gems`: the loop
reads only `gem.get('id')` and `gem.get('potential_score', 0)`; `tag` stands
for the rest of the enriched dictionary, so two candidates with the same id
and score can still be distinct records. -/
structure Gem where
  id : String
  potential_score : ℚ
  tag : ℕ
deriving DecidableEq

/-- Number of candidates in `l` carrying the identifier `i`. -/
def countId (l : List Gem) (i : String) : ℕ :=
  (l.filter (fun g => g.id == i)).length

/-- The loop of `GemFinder._deduplicate_gems`
(src/trademind/analyzers/gem_finder.py, lines 396-415): `seen_ids` is the
dict (updates are consed in front), `unique_gems` the output list; an unseen
id is appended, a strictly higher-scoring duplicate replaces the stored entry
(the old one is filtered out and the new one appended), and any other
duplicate is dropped. -/
def dedup_go : List (String × Gem) → List Gem → List Gem → List Gem
  | _, unique_gems, [] => unique_gems
  | seen_ids, unique_gems, gem :: rest =>
    match assocGet gem.id seen_ids with
    | none => dedup_go ((gem.id, gem) :: seen_ids) (unique_gems ++ [gem]) rest
    | some existing =>
      if existing.potential_score < gem.potential_score then
        dedup_go ((gem.id, gem) :: seen_ids)
          ((unique_gems.filter (fun g => g.id != gem.id)) ++ [gem]) rest
      else dedup_go seen_ids unique_gems rest

/-- `GemFinder._deduplicate_gems`, starting from an empty dict and list. -/
def deduplicate_gems (gems : List Gem) : List Gem := dedup_go [] [] gems

lemma countId_nil (i : String) : countId [] i = 0 := rfl

lemma countId_cons (g : Gem) (l : List Gem) (i : String) :
    countId (g :: l) i = (if g.id = i then 1 else 0) + countId l i := by
  by_cases h : g.id = i
  · simp [countId, List.filter_cons, h, Nat.add_comm]
  · simp [countId, List.filter_cons, h]

lemma countId_append (l1 l2 : List Gem) (i : String) :
    countId (l1 ++ l2) i = countId l1 i + countId l2 i := by
  simp [countId, List.filter_append]

lemma countId_eq_zero {l : List Gem} {i : String} :
    countId l i = 0 ↔ ∀ g ∈ l, g.id ≠ i := by
  simp [countId, List.length_eq_zero, List.filter_eq_nil_iff]

lemma countId_singleton_ne {g : Gem} {i : String} (h : g.id ≠ i) :
    countId [g] i = 0 :=
  countId_eq_zero.mpr (fun x hx => by rw [List.mem_singleton.mp hx]; exact h)

lemma countId_pos_of_mem {l : List Gem} {g : Gem} {i : String}
    (hg : g ∈ l) (hid : g.id = i) : 1 ≤ countId l i := by
  have hf : g ∈ l.filter (fun x => x.id == i) :=
    List.mem_filter.mpr ⟨hg, by simp [hid]⟩
  exact List.length_pos.mpr (List.ne_nil_of_mem hf)

lemma eq_of_mem_of_countId_le_one {l : List Gem} {x y : Gem} {i : String}
    (hc : countId l i ≤ 1) (hx : x ∈ l) (hy : y ∈ l)
    (hxi : x.id = i) (hyi : y.id = i) : x = y := by
  have hxf : x ∈ l.filter (fun g => g.id == i) :=
    List.mem_filter.mpr ⟨hx, by simp [hxi]⟩
  have hyf : y ∈ l.filter (fun g => g.id == i) :=
    List.mem_filter.mpr ⟨hy, by simp [hyi]⟩
  unfold countId at hc
  rcases hfl : l.filter (fun g => g.id == i) with _ | ⟨a, rest⟩
  · rw [hfl] at hxf; exact absurd hxf (List.not_mem_nil x)
  · rw [hfl] at hxf hyf hc
    have hrest : rest = [] := by
      simp only [List.length_cons] at hc
      exact List.length_eq_zero.mp (by omega)
    subst hrest
    rw [List.mem_singleton.mp hxf, List.mem_singleton.mp hyf]

lemma countId_filter_ne (l : List Gem) (j i : String) (hij : i ≠ j) :
    countId (l.filter (fun g => g.id != j)) i = countId l i := by
  induction l with
  | nil => rfl
  | cons g rest ih =>
    rw [countId_cons]
    by_cases hgj : g.id = j
    · have h1 : (fun g : Gem => g.id != j) g = false := by simp [hgj]
      rw [List.filter_cons_of_neg (by simp [h1]), ih,
        if_neg (fun hh : g.id = i => hij (hh ▸ hgj.symm ▸ rfl))]
      omega
    · rw [List.filter_cons_of_pos (by simp [hgj]), countId_cons, ih]

lemma countId_filter_self (l : List Gem) (j : String) :
    countId (l.filter (fun g => g.id != j)) j = 0 := by
  rw [countId_eq_zero]
  intro g hg
  have hb := (List.mem_filter.mp hg).2
  simpa using hb

lemma assocGet_cons_self {β : Type} (k : String) (v : β) (l : List (String × β)) :
    assocGet k ((k, v) :: l) = some v := by
  simp [assocGet]

lemma assocGet_cons_ne {β : Type} (k a : String) (v : β) (l : List (String × β))
    (h : k ≠ a) : assocGet k ((a, v) :: l) = assocGet k l := by
  simp [assocGet, h]

/-- Invariant tying the loop state of `_deduplicate_gems` together: the dict
and the output list store exactly the same candidate per identifier, and the
output holds at most one candidate per identifier. -/
structure DedupInv (seen : List (String × Gem)) (unique : List Gem) : Prop where
  ofSome : ∀ i g, assocGet i seen = some g →
    g.id = i ∧ g ∈ unique ∧ ∀ x ∈ unique, x.id = i → x = g
  ofNone : ∀ i, assocGet i seen = none → countId unique i = 0
  count_le : ∀ i, countId unique i ≤ 1

lemma dedupInv_nil : DedupInv [] [] := by
  constructor
  · intro j g hj; simp [assocGet] at hj
  · intro j _; rfl
  · intro j; exact Nat.le_of_eq (countId_nil j) |>.trans (Nat.zero_le 1)

lemma dedupInv_insert {seen : List (String × Gem)} {unique : List Gem} (gem : Gem)
    (inv : DedupInv seen unique) (hl : assocGet gem.id seen = none) :
    DedupInv ((gem.id, gem) :: seen) (unique ++ [gem]) := by
  have hcnt0 : countId unique gem.id = 0 := inv.ofNone gem.id hl
  constructor
  · intro j g hj
    by_cases hji : j = gem.id
    · subst hji
      rw [assocGet_cons_self] at hj
      injection hj with hj
      subst hj
      refine ⟨rfl, List.mem_append_right _ (List.mem_singleton.mpr rfl), ?_⟩
      intro x hx hxi
      rcases List.mem_append.mp hx with hx | hx
      · exact absurd hxi (countId_eq_zero.mp hcnt0 x hx)
      · exact List.mem_singleton.mp hx
    · rw [assocGet_cons_ne _ _ _ _ hji] at hj
      obtain ⟨hgi, hgmem, huniq⟩ := inv.ofSome j g hj
      refine ⟨hgi, List.mem_append_left _ hgmem, ?_⟩
      intro x hx hxi
      rcases List.mem_append.mp hx with hx | hx
      · exact huniq x hx hxi
      · exfalso
        rw [List.mem_singleton.mp hx] at hxi
        exact hji hxi.symm
  · intro j hj
    by_cases hji : j = gem.id
    · subst hji; rw [assocGet_cons_self] at hj; exact absurd hj (by simp)
    · rw [assocGet_cons_ne _ _ _ _ hji] at hj
      rw [countId_append, inv.ofNone j hj,
        countId_singleton_ne (fun hh : gem.id = j => hji hh.symm)]
  · intro j
    rw [countId_append]
    by_cases hji : j = gem.id
    · subst hji
      rw [hcnt0]
      have h1 : countId [gem] gem.id ≤ 1 := by
        rw [countId_cons, if_pos rfl, countId_nil]
      omega
    · have h1 := inv.count_le j
      have h2 := countId_singleton_ne (fun hh : gem.id = j => hji hh.symm)
      omega

lemma dedupInv_replace {seen : List (String × Gem)} {unique : List Gem}
    (gem : Gem) (inv : DedupInv seen unique) :
    DedupInv ((gem.id, gem) :: seen)
      ((unique.filter (fun g => g.id != gem.id)) ++ [gem]) := by
  constructor
  · intro j g hj
    by_cases hji : j = gem.id
    · subst hji
      rw [assocGet_cons_self] at hj
      injection hj with hj
      subst hj
      refine ⟨rfl, List.mem_append_right _ (List.mem_singleton.mpr rfl), ?_⟩
      intro x hx hxi
      rcases List.mem_append.mp hx with hx | hx
      · exfalso
        have hb := (List.mem_filter.mp hx).2
        rw [hxi] at hb
        simp at hb
      · exact List.mem_singleton.mp hx
    · rw [assocGet_cons_ne _ _ _ _ hji] at hj
      obtain ⟨hgi, hgmem, huniq⟩ := inv.ofSome j g hj
      have hgf : g ∈ unique.filter (fun x => x.id != gem.id) :=
        List.mem_filter.mpr ⟨hgmem, by
          simp only [bne_iff_ne, ne_eq, decide_not]
          simp [hgi, fun hh : j = gem.id => hji hh]⟩
      refine ⟨hgi, List.mem_append_left _ hgf, ?_⟩
      intro x hx hxi
      rcases List.mem_append.mp hx with hx | hx
      · exact huniq x (List.mem_filter.mp hx).1 hxi
      · exfalso
        rw [List.mem_singleton.mp hx] at hxi
        exact hji hxi.symm
  · intro j hj
    by_cases hji : j = gem.id
    · subst hji; rw [assocGet_cons_self] at hj; exact absurd hj (by simp)
    · rw [assocGet_cons_ne _ _ _ _ hji] at hj
      rw [countId_append, countId_filter_ne unique gem.id j hji, inv.ofNone j hj,
        countId_singleton_ne (fun hh : gem.id = j => hji hh.symm)]
  · intro j
    rw [countId_append]
    by_cases hji : j = gem.id
    · subst hji
      rw [countId_filter_self]
      have h1 : countId [gem] gem.id ≤ 1 := by
        rw [countId_cons, if_pos rfl, countId_nil]
      omega
    · rw [countId_filter_ne unique gem.id j hji]
      have h1 := inv.count_le j
      have h2 := countId_singleton_ne (fun hh : gem.id = j => hji hh.symm)
      omega

/-- Full characterization of the dedup loop: from a state satisfying the
invariant, an identifier present in the state or the remaining input ends up
with exactly one candidate in the result, that candidate comes from the state
or the input, and it carries the maximum potential score among all of them;
an identifier present in neither ends up with none. -/
lemma dedup_go_spec :
    ∀ (rest : List Gem) (seen : List (String × Gem)) (unique : List Gem),
      DedupInv seen unique → ∀ i : String,
      ((∃ x, (x ∈ unique ∨ x ∈ rest) ∧ x.id = i) →
        countId (dedup_go seen unique rest) i = 1 ∧
        ∃ g, g ∈ dedup_go seen unique rest ∧ g.id = i ∧ (g ∈ unique ∨ g ∈ rest) ∧
          ∀ x, (x ∈ unique ∨ x ∈ rest) → x.id = i →
            x.potential_score ≤ g.potential_score) ∧
      ((∀ x, (x ∈ unique ∨ x ∈ rest) → x.id ≠ i) →
        countId (dedup_go seen unique rest) i = 0) := by
  intro rest
  induction rest with
  | nil =>
    intro seen unique inv i
    constructor
    · rintro ⟨x, hx, hxi⟩
      rcases hx with hx | hx
      · have h1 : 1 ≤ countId unique i := countId_pos_of_mem hx hxi
        refine ⟨le_antisymm (inv.count_le i) h1, x, hx, hxi, Or.inl hx, ?_⟩
        intro x2 hx2 hxi2
        rcases hx2 with hx2 | hx2
        · exact le_of_eq
            (congrArg Gem.potential_score
              (eq_of_mem_of_countId_le_one (inv.count_le i) hx2 hx hxi2 hxi))
        · exact absurd hx2 (List.not_mem_nil x2)
      · exact absurd hx (List.not_mem_nil x)
    · intro hall
      exact countId_eq_zero.mpr (fun g hg => hall g (Or.inl hg))
  | cons gem rest2 ih =>
    intro seen unique inv i
    cases hl : assocGet gem.id seen with
    | none =>
      have hres : dedup_go seen unique (gem :: rest2) =
          dedup_go ((gem.id, gem) :: seen) (unique ++ [gem]) rest2 := by
        simp only [dedup_go, hl]
      obtain ⟨pos2, neg2⟩ := ih ((gem.id, gem) :: seen) (unique ++ [gem])
        (dedupInv_insert gem inv hl) i
      constructor
      · rintro ⟨x, hx, hxi⟩
        have hx2 : (x ∈ unique ++ [gem] ∨ x ∈ rest2) := by
          rcases hx with hx | hx
          · exact Or.inl (List.mem_append_left _ hx)
          · rcases List.mem_cons.mp hx with hx | hx
            · exact Or.inl (List.mem_append_right _ (List.mem_singleton.mpr hx))
            · exact Or.inr hx
        obtain ⟨hcount, g, hg, hgi, hgmem, hmax⟩ := pos2 ⟨x, hx2, hxi⟩
        rw [hres]
        refine ⟨hcount, g, hg, hgi, ?_, ?_⟩
        · rcases hgmem with hg2 | hg2
          · rcases List.mem_append.mp hg2 with hg3 | hg3
            · exact Or.inl hg3
            · exact Or.inr (List.mem_cons.mpr (Or.inl (List.mem_singleton.mp hg3)))
          · exact Or.inr (List.mem_cons.mpr (Or.inr hg2))
        · intro x2 hx2b hxi2
          refine hmax x2 ?_ hxi2
          rcases hx2b with hb | hb
          · exact Or.inl (List.mem_append_left _ hb)
          · rcases List.mem_cons.mp hb with hb | hb
            · exact Or.inl (List.mem_append_right _ (List.mem_singleton.mpr hb))
            · exact Or.inr hb
      · intro hall
        rw [hres]
        apply neg2
        intro x hx
        rcases hx with hx | hx
        · rcases List.mem_append.mp hx with hb | hb
          · exact hall x (Or.inl hb)
          · rw [List.mem_singleton.mp hb]
            exact hall gem (Or.inr (List.mem_cons_self _ _))
        · exact hall x (Or.inr (List.mem_cons_of_mem _ hx))
    | some existing =>
      obtain ⟨hei, hemem, heuniq⟩ := inv.ofSome gem.id existing hl
      by_cases hsc : existing.potential_score < gem.potential_score
      · -- the duplicate strictly improves: replace
        have hres : dedup_go seen unique (gem :: rest2) =
            dedup_go ((gem.id, gem) :: seen)
              ((unique.filter (fun g => g.id != gem.id)) ++ [gem]) rest2 := by
          simp only [dedup_go, hl, if_pos hsc]
        obtain ⟨pos2, neg2⟩ := ih ((gem.id, gem) :: seen)
          ((unique.filter (fun g => g.id != gem.id)) ++ [gem])
          (dedupInv_replace gem inv) i
        have hgem_mem : gem ∈ (unique.filter (fun g => g.id != gem.id)) ++ [gem] :=
          List.mem_append_right _ (List.mem_singleton.mpr rfl)
        constructor
        · rintro ⟨x, hx, hxi⟩
          have htrig : ∃ y, (y ∈ (unique.filter (fun g => g.id != gem.id)) ++ [gem] ∨
              y ∈ rest2) ∧ y.id = i := by
            rcases hx with hx | hx
            · by_cases hig : i = gem.id
              · exact ⟨gem, Or.inl hgem_mem, hig.symm⟩
              · refine ⟨x, Or.inl (List.mem_append_left _ (List.mem_filter.mpr
                  ⟨hx, ?_⟩)), hxi⟩
                simp only [bne_iff_ne, ne_eq, decide_not]
                simp [hxi, fun hh : i = gem.id => hig hh]
            · rcases List.mem_cons.mp hx with hx | hx
              · exact ⟨gem, Or.inl hgem_mem, hx ▸ hxi⟩
              · exact ⟨x, Or.inr hx, hxi⟩
          obtain ⟨hcount, g, hg, hgi, hgmem, hmax⟩ := pos2 htrig
          rw [hres]
          refine ⟨hcount, g, hg, hgi, ?_, ?_⟩
          · rcases hgmem with hg2 | hg2
            · rcases List.mem_append.mp hg2 with hg3 | hg3
              · exact Or.inl (List.mem_filter.mp hg3).1
              · exact Or.inr (List.mem_cons.mpr (Or.inl (List.mem_singleton.mp hg3)))
            · exact Or.inr (List.mem_cons.mpr (Or.inr hg2))
          · intro x2 hx2b hxi2
            rcases hx2b with hb | hb
            · by_cases hig : i = gem.id
              · -- x2 sits in `unique` under the replaced id: it is `existing`
                have hx2e : x2 = existing := heuniq x2 hb (hig ▸ hxi2)
                have hgem_le : gem.potential_score ≤ g.potential_score :=
                  hmax gem (Or.inl hgem_mem) hig.symm
                rw [hx2e]
                exact le_trans hsc.le hgem_le
              · refine hmax x2 (Or.inl (List.mem_append_left _
                  (List.mem_filter.mpr ⟨hb, ?_⟩))) hxi2
                simp only [bne_iff_ne, ne_eq, decide_not]
                simp [hxi2, fun hh : i = gem.id => hig hh]
            · rcases List.mem_cons.mp hb with hb | hb
              · rw [hb]
                exact hmax gem (Or.inl hgem_mem) (hb ▸ hxi2)
              · exact hmax x2 (Or.inr hb) hxi2
        · intro hall
          rw [hres]
          apply neg2
          intro x hx
          rcases hx with hx | hx
          · rcases List.mem_append.mp hx with hb | hb
            · exact hall x (Or.inl (List.mem_filter.mp hb).1)
            · rw [List.mem_singleton.mp hb]
              exact hall gem (Or.inr (List.mem_cons_self _ _))
          · exact hall x (Or.inr (List.mem_cons_of_mem _ hx))
      · -- the duplicate does not improve: it is dropped
        have hres : dedup_go seen unique (gem :: rest2) = dedup_go seen unique rest2 := by
          simp only [dedup_go, hl, if_neg hsc]
        obtain ⟨pos2, neg2⟩ := ih seen unique inv i
        constructor
        · rintro ⟨x, hx, hxi⟩
          have htrig : ∃ y, (y ∈ unique ∨ y ∈ rest2) ∧ y.id = i := by
            rcases hx with hx | hx
            · exact ⟨x, Or.inl hx, hxi⟩
            · rcases List.mem_cons.mp hx with hx | hx
              · exact ⟨existing, Or.inl hemem, hei.trans (hx ▸ hxi)⟩
              · exact ⟨x, Or.inr hx, hxi⟩
          obtain ⟨hcount, g, hg, hgi, hgmem, hmax⟩ := pos2 htrig
          rw [hres]
          refine ⟨hcount, g, hg, hgi, ?_, ?_⟩
          · exact hgmem.imp id (List.mem_cons_of_mem _)
          · intro x2 hx2b hxi2
            rcases hx2b with hb | hb
            · exact hmax x2 (Or.inl hb) hxi2
            · rcases List.mem_cons.mp hb with hb | hb
              · have hexist_le : existing.potential_score ≤ g.potential_score :=
                  hmax existing (Or.inl hemem) (hei.trans (hb ▸ hxi2))
                rw [hb]
                exact le_trans (not_lt.mp hsc) hexist_le
              · exact hmax x2 (Or.inr hb) hxi2
        · intro hall
          rw [hres]
          apply neg2
          intro x hx
          rcases hx with hx | hx
          · exact hall x (Or.inl hx)
          · exact hall x (Or.inr (List.mem_cons_of_mem _ hx))

/-- Claim C6: the output of `_deduplicate_gems` contains exactly one candidate
per identifier occurring in the input, that candidate is one of the input
candidates, and it carries the maximum potential score among all input
candidates with that identifier; identifiers absent from the input do not
occur in the output. -/
theorem deduplicate_gems_spec (gems : List Gem) (i : String) :
    ((∃ x ∈ gems, x.id = i) →
      countId (deduplicate_gems gems) i = 1 ∧
      ∃ g ∈ deduplicate_gems gems, g.id = i ∧ g ∈ gems ∧
        ∀ x ∈ gems, x.id = i → x.potential_score ≤ g.potential_score) ∧
    ((∀ x ∈ gems, x.id ≠ i) → countId (deduplicate_gems gems) i = 0) := by
  obtain ⟨pos, neg⟩ := dedup_go_spec gems [] [] dedupInv_nil i
  constructor
  · rintro ⟨x, hx, hxi⟩
    obtain ⟨hcount, g, hg, hgi, hgmem, hmax⟩ := pos ⟨x, Or.inr hx, hxi⟩
    refine ⟨hcount, g, hg, hgi, ?_, ?_⟩
    · rcases hgmem with h | h
      · exact absurd h (List.not_mem_nil g)
      · exact h
    · intro x2 hx2 hxi2
      exact hmax x2 (Or.inr hx2) hxi2
  · intro hall
    apply neg
    intro x hx
    rcases hx with hx | hx
    · exact absurd hx (List.not_mem_nil x)
    · exact hall x hx

/-- Demonstration input with a duplicated identifier, the later duplicate
scoring strictly higher. -/
def demoGems : List Gem := [⟨"abc", 10, 0⟩, ⟨"abc", 50, 1⟩, ⟨"xyz", 5, 2⟩]

/-- Witness for `deduplicate_gems_spec` on `demoGems` at identifier "abc". -/
theorem deduplicate_gems_spec_witness :
    countId (deduplicate_gems demoGems) "abc" = 1 ∧
    ∃ g ∈ deduplicate_gems demoGems, g.id = "abc" ∧ g ∈ demoGems ∧
      ∀ x ∈ demoGems, x.id = "abc" → x.potential_score ≤ g.potential_score :=
  (deduplicate_gems_spec demoGems "abc").1
    ⟨⟨"abc", 10, 0⟩, List.mem_cons_self _ _, rfl⟩

lemma dedup_go_fresh :
    ∀ (rest : List Gem) (seen : List (String × Gem)) (unique : List Gem),
      (∀ g ∈ rest, assocGet g.id seen = none) →
      (rest.map Gem.id).Nodup →
      dedup_go seen unique rest = unique ++ rest := by
  intro rest
  induction rest with
  | nil =>
    intro seen unique _ _
    simp [dedup_go]
  | cons gem rest2 ih =>
    intro seen unique hfresh hnodup
    have hnd : gem.id ∉ rest2.map Gem.id ∧ (rest2.map Gem.id).Nodup := by
      rw [List.map_cons, List.nodup_cons] at hnodup
      exact hnodup
    have hl : assocGet gem.id seen = none := hfresh gem (List.mem_cons_self _ _)
    have hres : dedup_go seen unique (gem :: rest2) =
        dedup_go ((gem.id, gem) :: seen) (unique ++ [gem]) rest2 := by
      simp only [dedup_go, hl]
    rw [hres, ih ((gem.id, gem) :: seen) (unique ++ [gem]) ?_ hnd.2]
    · simp
    · intro g hg
      have hne : g.id ≠ gem.id := by
        intro he
        exact hnd.1 (List.mem_map.mpr ⟨g, hg, he⟩)
      rw [assocGet_cons_ne _ _ _ _ hne]
      exact hfresh g (List.mem_cons_of_mem _ hg)

lemma countId_dedup_le_one (gems : List Gem) (i : String) :
    countId (deduplicate_gems gems) i ≤ 1 := by
  unfold deduplicate_gems
  obtain ⟨pos, neg⟩ := dedup_go_spec gems [] [] dedupInv_nil i
  by_cases h : ∃ x, (x ∈ ([] : List Gem) ∨ x ∈ gems) ∧ x.id = i
  · exact le_of_eq (pos h).1
  · have h0 := neg (fun x hx he => h ⟨x, hx, he⟩)
    omega

lemma nodup_ids_of_countId_le_one :
    ∀ l : List Gem, (∀ i, countId l i ≤ 1) → (l.map Gem.id).Nodup := by
  intro l
  induction l with
  | nil => intro _; simp
  | cons g rest ih =>
    intro h
    rw [List.map_cons, List.nodup_cons]
    constructor
    · intro hmem
      obtain ⟨x, hx, hxe⟩ := List.mem_map.mp hmem
      have hc := h g.id
      rw [countId_cons, if_pos rfl] at hc
      exact countId_eq_zero.mp (by omega) x hx hxe
    · apply ih
      intro i
      have hc := h i
      rw [countId_cons] at hc
      by_cases hgi : g.id = i
      · rw [if_pos hgi] at hc; omega
      · rw [if_neg hgi] at hc; omega

/-- Claim C7: deduplication is idempotent — on a list whose identifiers are
pairwise distinct (in particular any output of `_deduplicate_gems`) the
function is the identity, and applying it twice to any list equals applying
it once. -/
theorem deduplicate_gems_idempotent :
    (∀ gems : List Gem, (gems.map Gem.id).Nodup → deduplicate_gems gems = gems) ∧
    (∀ gems : List Gem,
      deduplicate_gems (deduplicate_gems gems) = deduplicate_gems gems) := by
  have hfix : ∀ gems : List Gem, (gems.map Gem.id).Nodup →
      deduplicate_gems gems = gems := by
    intro gems hnd
    unfold deduplicate_gems
    rw [dedup_go_fresh gems [] [] (fun g _ => rfl) hnd]
    simp
  exact ⟨hfix, fun gems =>
    hfix _ (nodup_ids_of_countId_le_one _ (fun i => countId_dedup_le_one gems i))⟩

/-- Witness for `deduplicate_gems_idempotent`: the identity on a singleton,
and stability of the deduplicated `demoGems`. -/
theorem deduplicate_gems_idempotent_witness :
    deduplicate_gems [⟨"abc", 10, 0⟩] = [⟨"abc", 10, 0⟩] ∧
    deduplicate_gems (deduplicate_gems demoGems) = deduplicate_gems demoGems :=
  ⟨deduplicate_gems_idempotent.1 [⟨"abc", 10, 0⟩] (by simp),
   deduplicate_gems_idempotent.2 demoGems⟩

/-- Outcome of one HTTP GET attempt: a response with a status code and body,
or a raised network exception from the requests library. -/
inductive HttpEvent (β : Type) where
  | response (status : ℕ) (body : β)
  | network_error
deriving DecidableEq

/-- The status/message/result envelope returned by the BSCScan API. -/
structure BscEnvelope where
  status : String
  message : String
  result : List RawTransfer
deriving DecidableEq

/-- `CoinGeckoClient._make_sync_request`
(src/trademind/collectors/coingecko.py, lines 74-94), driven by the sequence
of network outcomes its attempts observe: 200 returns the body, 429 sleeps and
retries on the next outcome, any other status logs and returns the empty dict,
and a raised exception is caught, logged, and also yields the empty dict.
`none` models the empty dict `{}`; the empty outcome list (the retry recursion
running out of responses) is unreachable for a real network. -/
def coingecko_make_sync_request {β : Type} : List (HttpEvent β) → Option β
  | [] => none
  | HttpEvent.network_error :: _ => none
  | HttpEvent.response status body :: rest =>
    if status = 200 then some body
    else if status = 429 then coingecko_make_sync_request rest
    else none

/-- `BSCScanClient._make_sync_request`
(src/trademind/collectors/bscscan.py, lines 66-80): there is no try/except
and no rate-limit branch — a 200 response with provider status `"1"` returns
the envelope, a 200 response with any other provider status raises
`API Error`, a non-200 response raises `HTTP Error`, and a network exception
from `requests.get` propagates uncaught. -/
def bscscan_make_sync_request (e : HttpEvent BscEnvelope) : Except String BscEnvelope :=
  match e with
  | HttpEvent.response status data =>
    if status = 200 then
      if data.status = "1" then Except.ok data
      else Except.error ("API Error: " ++ data.message)
    else Except.error ("HTTP Error: " ++ toString status)
  | HttpEvent.network_error => Except.error "network failure propagates"

/-- Claim C9 (counterexample): not every client returns an empty result on a
transport error — the BSCScan synchronous request raises on a non-200
response (here a 500), propagating an exception to its caller instead of
returning an empty result. -/
theorem bscscan_sync_request_raises :
    bscscan_make_sync_request (HttpEvent.response 500 ⟨"1", "", []⟩) =
      Except.error "HTTP Error: 500" ∧
    bscscan_make_sync_request HttpEvent.network_error =
      Except.error "network failure propagates" := by
  exact ⟨rfl, rfl⟩

/-- Claim C9 (amended: only the CoinGecko client swallows transport errors):
for every transport error — a non-200, non-429 status or a network failure —
the CoinGecko synchronous request returns the empty result, while the BSCScan
synchronous request raises an exception that its caller must handle. -/
theorem sync_request_transport_error_spec {β : Type} (status : ℕ) (body : β)
    (env : BscEnvelope) (rest : List (HttpEvent β))
    (h200 : status ≠ 200) (h429 : status ≠ 429) :
    coingecko_make_sync_request (HttpEvent.response status body :: rest) = none ∧
    coingecko_make_sync_request (HttpEvent.network_error :: rest) = none ∧
    (∃ msg, bscscan_make_sync_request (HttpEvent.response status env) =
      Except.error msg) ∧
    (∃ msg, bscscan_make_sync_request HttpEvent.network_error =
      Except.error msg) := by
  refine ⟨?_, rfl, ?_, ⟨"network failure propagates", rfl⟩⟩
  · simp [coingecko_make_sync_request, h200, h429]
  · refine ⟨"HTTP Error: " ++ toString status, ?_⟩
    simp [bscscan_make_sync_request, h200]

/-- Witness for `sync_request_transport_error_spec` at status 500. -/
theorem sync_request_transport_error_spec_witness :
    coingecko_make_sync_request (HttpEvent.response 500 () :: []) = none ∧
    coingecko_make_sync_request (HttpEvent.network_error :: ([] : List (HttpEvent Unit))) = none ∧
    (∃ msg, bscscan_make_sync_request (HttpEvent.response 500 ⟨"1", "", []⟩) =
      Except.error msg) ∧
    (∃ msg, bscscan_make_sync_request HttpEvent.network_error =
      Except.error msg) :=
  sync_request_transport_error_spec 500 () ⟨"1", "", []⟩ []
    (by norm_num) (by norm_num)

end TradeMind
